import Mathlib

/-!
Shallow embedding of the wallet-monitor backend (balance-delta monitor
`WalletMonitorServiceNew`, the PnL aggregator methods `initializeDailyPnL` /
`updateDailyPnL`, the PST day-boundary helpers, and the WebSocket push hub
`WebSocketService`).

Modelling conventions:
* JavaScript numbers are modelled as `ℚ` (the source does IEEE-double
  arithmetic on small decimal amounts and serializes them to decimal
  strings; every claim is about algebraic relations and threshold
  comparisons, which we state exactly over `ℚ`).
* Nullable fields are `Option`; JS falsiness of a possibly-missing number
  (`!blockTime`, `if (lastTradeId)`) is modelled as `none` or zero.
* The relational store is modelled per wallet: `trades` is the list of
  trade rows for the signature space, `pnlRows` the wallet's `pnl_records`
  rows, `pnlCache` the wallet's entry of `dailyPnLCache`.
* `Date` values are epoch milliseconds (`Int`); the host's
  `getTimezoneOffset()` result (minutes, UTC − local) is an explicit
  parameter `tzOffset`, constant across calls (fixed-offset host).
* Columns never read by any claim (`userId`, `priceUsd`, `txFees`,
  `rawData`, `createdAt`, `updatedAt`) are omitted from the row types.
-/

/-- The native-wrapped SOL mint, literal from the source. -/
def wsolMint : String := "So11111111111111111111111111111111111111112"

/-- One entry of `meta.preTokenBalances` / `meta.postTokenBalances`:
`{accountIndex, mint, owner, uiTokenAmount.uiAmount}`. -/
structure TokenBalance where
  accountIndex : Nat
  mint : String
  owner : Option String
  uiAmount : Option ℚ
deriving DecidableEq, Repr

/-- An element of the `tokenChanges` array built by `processTransaction`. -/
structure TokenChange where
  mint : String
  preAmount : ℚ
  postAmount : ℚ
  change : ℚ
deriving DecidableEq, Repr

/-- The parsed transaction as consumed by the monitor: `meta.err`,
`meta.preBalances` / `meta.postBalances` (lamports, indexed by account),
the token balances, and `message.accountKeys` (pubkeys as strings). -/
structure ParsedTx where
  err : Bool
  preBalances : List ℚ
  postBalances : List ℚ
  preTokenBalances : List TokenBalance
  postTokenBalances : List TokenBalance
  accountKeys : List String
deriving DecidableEq, Repr

/-- The `0.000001` threshold used for negligible SOL / token changes. -/
def dustThreshold : ℚ := 1 / 1000000

/-- First phase of the token-delta computation (source lines 422-442): for
each post token balance owned by the wallet, pair with the pre balance at
the same `accountIndex`; push the change when `|change| > 0.000001`. -/
def postTokenPass (walletAddress : String) (preTokenBalances postTokenBalances : List TokenBalance) :
    List TokenChange :=
  postTokenBalances.foldl (fun acc post =>
    if post.owner = some walletAddress then
      let pre := preTokenBalances.find? (fun p => p.accountIndex = post.accountIndex)
      let preAmount := (pre.bind TokenBalance.uiAmount).getD 0
      let postAmount := post.uiAmount.getD 0
      let change := postAmount - preAmount
      if dustThreshold < |change| then
        acc ++ [⟨post.mint, preAmount, postAmount, change⟩]
      else acc
    else acc) []

/-- Second phase (source lines 445-468): a pre token balance owned by the
wallet with positive amount is appended as a full exit (`change =
-preAmount`, no dust filter) unless `alreadyProcessed`: some already
collected change has a mint that appears in a post balance at the pre
entry's `accountIndex`. -/
def preTokenPass (walletAddress : String) (postTokenBalances : List TokenBalance)
    (preTokenBalances : List TokenBalance) (acc : List TokenChange) : List TokenChange :=
  preTokenBalances.foldl (fun acc pre =>
    let alreadyProcessed := acc.any (fun tc =>
      postTokenBalances.any (fun post =>
        post.accountIndex = pre.accountIndex && post.mint = tc.mint))
    if ¬alreadyProcessed ∧ pre.owner = some walletAddress then
      let preAmount := pre.uiAmount.getD 0
      if 0 < preAmount then
        acc ++ [⟨pre.mint, preAmount, 0, -preAmount⟩]
      else acc
    else acc) acc

/-- The `tokenChanges` array computed by `processTransaction`
(source lines 410-468). -/
def computeTokenChanges (walletAddress : String)
    (preTokenBalances postTokenBalances : List TokenBalance) : List TokenChange :=
  preTokenPass walletAddress postTokenBalances preTokenBalances
    (postTokenPass walletAddress preTokenBalances postTokenBalances)

/-! ### Day-boundary helpers (source lines 791-812)

`getPSTDate` reproduces
`new Date(date.getTime() + date.getTimezoneOffset()*60000 + 3600000*(-8))`
and `setHours(0,0,0,0)` / `setHours(23,59,59,999)` floor an epoch value to
the host-local day, where `tzOffset` is the host's `getTimezoneOffset()`
in minutes (UTC − local; 0 for a UTC host, 480 for a UTC−8 host). -/

def msPerMinute : Int := 60000
def msPerHour : Int := 3600000
def msPerDay : Int := 86400000

/-- `PST_OFFSET = -8` from the source. -/
def pstOffsetHours : Int := -8

/-- `getPSTDate` (source lines 791-794). -/
def getPSTDate (t tzOffset : Int) : Int :=
  t + tzOffset * msPerMinute + msPerHour * pstOffsetHours

/-- `date.setHours(0,0,0,0)` on a host with offset `tzOffset`. -/
def setHoursStart (e tzOffset : Int) : Int :=
  ((e - tzOffset * msPerMinute).fdiv msPerDay) * msPerDay + tzOffset * msPerMinute

/-- `date.setHours(23,59,59,999)` on a host with offset `tzOffset`. -/
def setHoursEnd (e tzOffset : Int) : Int :=
  ((e - tzOffset * msPerMinute).fdiv msPerDay) * msPerDay + (msPerDay - 1)
    + tzOffset * msPerMinute

/-- `getPSTStartOfDay` (source lines 799-803). -/
def getPSTStartOfDay (now tzOffset : Int) : Int :=
  setHoursStart (getPSTDate now tzOffset) tzOffset

/-- `getPSTEndOfDay` (source lines 808-812). -/
def getPSTEndOfDay (now tzOffset : Int) : Int :=
  setHoursEnd (getPSTDate now tzOffset) tzOffset

/-- The start of the fixed-offset UTC−8 day containing instant `t`, as an
epoch instant; written from the spec's day-boundary definition
(section 4.1), independent of any host timezone. -/
def utcMinus8DayStart (t : Int) : Int :=
  ((t - 8 * msPerHour).fdiv msPerDay) * msPerDay + 8 * msPerHour

/-! ### Store rows, cache, and events -/

/-- A `trades` row as written by the monitor (identity / audit columns
omitted; `amountA`, `amountB`, `tradePnl` are stored as decimal strings of
these rational values). -/
structure Trade where
  signature : String
  walletAddress : String
  tokenA : String
  tokenB : String
  tradeType : String
  amountA : ℚ
  amountB : ℚ
  platform : String
  tradePnl : ℚ
  blockTime : Int
deriving DecidableEq, Repr

/-- A `pnl_records` row for the wallet (the `date` column is the epoch
value produced by `getPSTStartOfDay`). -/
structure PnlRow where
  date : Int
  startBalance : ℚ
  endBalance : Option ℚ
  realizedPnl : ℚ
  totalTrades : Nat
  lastTradeId : Option Nat
deriving DecidableEq, Repr

/-- The wallet's entry of the in-memory `dailyPnLCache`. -/
structure DailyPnlCache where
  date : Int
  startBalance : ℚ
  currentBalance : ℚ
  realizedPnl : ℚ
  totalTrades : Nat
deriving DecidableEq, Repr

/-- The snapshot object carried by a `pnl` event (source lines 777-785). -/
structure PnlSnapshot where
  date : Int
  startBalance : ℚ
  currentBalance : ℚ
  realizedPnl : ℚ
  totalTrades : Nat
  lastTradeId : Option Nat
deriving DecidableEq, Repr

/-- Events emitted by the monitor that the claims reference. -/
inductive MonitorEvent where
  | trade (wallet : String) (t : Trade)
  | pnl (wallet : String) (s : PnlSnapshot)
deriving DecidableEq, Repr

/-- The wallet's persisted `pnl_records` rows plus its in-memory cache
entry, as touched by the PnL aggregator. -/
structure PnlState where
  rows : List PnlRow
  cache : Option DailyPnlCache
deriving DecidableEq, Repr

/-- `orderBy(desc(pnlRecordsTable.date)).limit(1)`: the row with the
greatest `date` (first such row on ties). -/
def latestByDate (rows : List PnlRow) : Option PnlRow :=
  rows.foldl (fun acc r =>
    match acc with
    | none => some r
    | some b => if b.date < r.date then some r else some b) none

/-! ### PnL aggregator (source lines 663-786) -/

/-- `initializeDailyPnL` (source lines 663-719): when no row for `today`
exists, seed `startBalance` from the most recent row's `endBalance` when
that is present, else from `currentBalance`; insert the new row with
`endBalance = currentBalance`, `realizedPnl = 0`, `totalTrades = 0`, and
set the cache entry. When a row for `today` exists, do nothing (in
particular the cache is not populated). -/
def initializeDailyPnL (today : Int) (currentBalance : ℚ) (st : PnlState) : PnlState :=
  if st.rows.any (fun r => r.date = today) then st
  else
    let lastRecord := latestByDate st.rows
    let startBalance :=
      match lastRecord with
      | some r =>
        match r.endBalance with
        | some e => e
        | none => currentBalance
      | none => currentBalance
    { rows := st.rows ++
        [{ date := today, startBalance := startBalance, endBalance := some currentBalance,
           realizedPnl := 0, totalTrades := 0, lastTradeId := none }],
      cache := some
        { date := today, startBalance := startBalance, currentBalance := currentBalance,
          realizedPnl := 0, totalTrades := 0 } }

/-- `updateDailyPnL` (source lines 724-786): with no cache entry, call
`initializeDailyPnL` and return (emitting nothing); with a cache entry,
bump `totalTrades` when `tradePnl ≠ 0`, set the cached balance and
accumulated `realizedPnl`, write `endBalance` / `realizedPnl` /
`totalTrades` (and `lastTradeId` when truthy) to the row whose `date`
matches the cache, and emit a `pnl` event with the new snapshot. -/
def updateDailyPnL (wallet : String) (today : Int) (currentBalance tradePnl : ℚ)
    (lastTradeId : Option Nat) (st : PnlState) : PnlState × List MonitorEvent :=
  match st.cache with
  | none => (initializeDailyPnL today currentBalance st, [])
  | some cache =>
    let totalTrades := if tradePnl ≠ 0 then cache.totalTrades + 1 else cache.totalTrades
    let realizedPnl := cache.realizedPnl + tradePnl
    let newLastTradeId := fun (old : Option Nat) =>
      match lastTradeId with
      | some n => if n = 0 then old else some n
      | none => old
    let rows := st.rows.map (fun r =>
      if r.date = cache.date then
        { r with endBalance := some currentBalance, realizedPnl := realizedPnl,
                 totalTrades := totalTrades, lastTradeId := newLastTradeId r.lastTradeId }
      else r)
    let cache2 : DailyPnlCache :=
      { cache with currentBalance := currentBalance,
                   realizedPnl := realizedPnl, totalTrades := totalTrades }
    let snap : PnlSnapshot :=
      { date := cache.date, startBalance := cache.startBalance,
        currentBalance := currentBalance, realizedPnl := realizedPnl,
        totalTrades := totalTrades, lastTradeId := lastTradeId }
    ({ rows := rows, cache := some cache2 }, [MonitorEvent.pnl wallet snap])

/-! ### Monitor state and per-signature processing (source lines 323-633) -/

/-- Per-wallet slice of the monitor's mutable state: the in-memory
`processedTransactions` set, the persisted `trades` rows (keyed by
signature) and the PnL rows/cache. -/
structure MonitorState where
  processedTransactions : List String
  trades : List Trade
  pnl : PnlState
deriving DecidableEq, Repr

/-- `db.insert(tradesTable).values(t).onConflictDoUpdate({target: signature})`:
insert by signature, overwriting all columns on conflict. -/
def upsertTrade (t : Trade) (trades : List Trade) : List Trade :=
  if trades.any (fun x => x.signature = t.signature) then
    trades.map (fun x => if x.signature = t.signature then t else x)
  else trades ++ [t]

/-- Result of `classifyAndSaveTransaction`: the new state, the events
emitted before returning or throwing, and whether a store write threw. -/
structure ClassifyResult where
  st : MonitorState
  events : List MonitorEvent
  failed : Bool
deriving DecidableEq, Repr

/-- The per-token-change loop of `classifyAndSaveTransaction` (source
lines 525-632). `persistFails` models the trade upsert throwing; the
throw is caught by `processTransaction`, so writes and events of earlier
iterations survive. The second `findIndex` of the source (lines 584-587)
is re-run here; the claims always place the wallet in `accountKeys`.
`updateDailyPnL` is called without a `lastTradeId` (source line 591). -/
def classifyLoop (sig wallet : String) (solChange : ℚ) (tx : ParsedTx)
    (blockTime today : Int) (persistFails : Bool) :
    List TokenChange → MonitorState → List MonitorEvent → ClassifyResult
  | [], st, evs => ⟨st, evs, false⟩
  | tc :: rest, st, evs =>
    if tc.mint = wsolMint then
      classifyLoop sig wallet solChange tx blockTime today persistFails rest st evs
    else
      let isBuy := 0 < tc.change ∧ solChange < 0
      let isSell := tc.change < 0 ∧ 0 < solChange
      if isBuy ∨ isSell then
        let tradePnl := if isBuy then -|solChange| else |solChange|
        let tradeData : Trade :=
          { signature := sig, walletAddress := wallet, tokenA := tc.mint,
            tokenB := wsolMint, tradeType := if isBuy then "buy" else "sell",
            amountA := |tc.change|, amountB := |solChange|,
            platform := "unknown", tradePnl := tradePnl, blockTime := blockTime }
        if persistFails then ⟨st, evs, true⟩
        else
          let st1 := { st with trades := upsertTrade tradeData st.trades }
          let evs1 := evs ++ [MonitorEvent.trade wallet tradeData]
          let postSol :=
            match tx.accountKeys.findIdx? (fun k => k = wallet) with
            | some i => (tx.postBalances.getD i 0) / 1000000000
            | none => 0
          let pr := updateDailyPnL wallet today postSol tradePnl none st1.pnl
          classifyLoop sig wallet solChange tx blockTime today persistFails rest
            { st1 with pnl := pr.1 } (evs1 ++ pr.2)
      else
        let isDeposit := 0 < tc.change
        let transferData : Trade :=
          { signature := sig, walletAddress := wallet, tokenA := tc.mint,
            tokenB := tc.mint, tradeType := if isDeposit then "deposit" else "withdrawal",
            amountA := |tc.change|, amountB := |tc.change|,
            platform := "transfer", tradePnl := 0, blockTime := blockTime }
        if persistFails then ⟨st, evs, true⟩
        else
          classifyLoop sig wallet solChange tx blockTime today persistFails rest
            { st with trades := upsertTrade transferData st.trades } evs

/-- `classifyAndSaveTransaction` (source lines 505-633): failed
transactions (`meta.err` non-null) are skipped without saving; otherwise
each surviving token change is classified and persisted. -/
def classifyAndSaveTransaction (sig wallet : String) (solChange : ℚ)
    (tokenChanges : List TokenChange) (tx : ParsedTx) (blockTime today : Int)
    (persistFails : Bool) (st : MonitorState) : ClassifyResult :=
  if tx.err then ⟨st, [], false⟩
  else classifyLoop sig wallet solChange tx blockTime today persistFails tokenChanges st []

/-- `processTransaction` (source lines 323-500). `blockTime` is the
optional block time in seconds (`!blockTime` is true for `undefined` and
for `0`); `fetchTx` is the `getParsedTransaction` result (`none` models a
missing transaction or missing `meta`); `now` is the current instant in
epoch milliseconds and `tzOffset` the host's `getTimezoneOffset()` in
minutes. Returns the new state and the events emitted. The
`updateUserBalance` call (users.lastActive) is outside the modelled
state. -/
def processTransaction (wallet sig : String) (blockTime : Option Int)
    (fetchTx : Option ParsedTx) (now tzOffset : Int) (persistFails : Bool)
    (st : MonitorState) : MonitorState × List MonitorEvent :=
  if sig ∈ st.processedTransactions then (st, [])
  else if st.trades.any (fun t => t.signature = sig) then
    ({ st with processedTransactions := sig :: st.processedTransactions }, [])
  else if blockTime.getD 0 = 0 then
    ({ st with processedTransactions := sig :: st.processedTransactions }, [])
  else
    let bt := blockTime.getD 0
    let txDate := getPSTDate (bt * 1000) tzOffset
    let todayStart := getPSTStartOfDay now tzOffset
    let todayEnd := getPSTEndOfDay now tzOffset
    if txDate < todayStart ∨ todayEnd < txDate then
      ({ st with processedTransactions := sig :: st.processedTransactions }, [])
    else
      match fetchTx with
      | none => ({ st with processedTransactions := sig :: st.processedTransactions }, [])
      | some tx =>
        match tx.accountKeys.findIdx? (fun k => k = wallet) with
        | none => ({ st with processedTransactions := sig :: st.processedTransactions }, [])
        | some i =>
          let preSol := (tx.preBalances.getD i 0) / 1000000000
          let postSol := (tx.postBalances.getD i 0) / 1000000000
          let solChange := postSol - preSol
          if |solChange| < dustThreshold then
            ({ st with processedTransactions := sig :: st.processedTransactions }, [])
          else
            let tokenChanges := computeTokenChanges wallet tx.preTokenBalances tx.postTokenBalances
            if tokenChanges = [] then (st, [])
            else
              let today := getPSTStartOfDay now tzOffset
              let r := classifyAndSaveTransaction sig wallet solChange tokenChanges tx bt
                today persistFails st
              ({ r.st with processedTransactions := sig :: r.st.processedTransactions },
               r.events)

/-! ### Push hub (src/backend/src/services/websocket/server.ts) -/

/-- The per-wallet part of the `USERS_UPDATE` / `USERS_LIST` payload that
the claims reference: the selected `pnl_records` row and the derived
numeric balance. -/
structure UserSnapshot where
  dailyPnl : Option PnlRow
  balance : ℚ
deriving DecidableEq, Repr

/-- Snapshot assembly shared by `broadcastUserUpdate` (server.ts lines
349-393) and `sendInitialUsersList` (lines 119-162): select the wallet's
`pnl_records` ordered by `date` descending, limit 1, and set
`balance = parseFloat(pnl[0].endBalance)` when that field is truthy,
else 0. The latest-trade legs and token metadata are omitted (no claim
reads them). -/
def assembleUserSnapshot (rows : List PnlRow) : UserSnapshot :=
  let pnl := latestByDate rows
  { dailyPnl := pnl, balance := ((pnl.bind PnlRow.endBalance).getD 0) }

/-- A connected client: socket identity, `readyState === OPEN`, and the
two subscription sets kept in `ClientConnection`. -/
structure ClientConn where
  id : Nat
  isOpen : Bool
  walletAddresses : Finset String
  subscriptions : Finset String
deriving DecidableEq

/-- Frames the hub can send that the claims reference. -/
inductive Frame where
  | tradeUpdate (wallet : String) (trade : Trade)
  | usersUpdate (snap : UserSnapshot)
  | unsubscribeAck (wallet : String) (success : Bool)
  | subscribeAck (wallet : String) (success : Bool)
deriving DecidableEq

/-- `sendToClient` (server.ts lines 418-422): delivered only when the
socket is open; a frame to a closed socket is dropped. -/
def sendToClient (c : ClientConn) (f : Frame) : List (Nat × Frame) :=
  if c.isOpen then [(c.id, f)] else []

/-- `getSubscribedClients` (server.ts lines 433-437). -/
def getSubscribedClients (clients : List ClientConn) (wallet : String) : List ClientConn :=
  clients.filter (fun c => wallet ∈ c.walletAddresses)

/-- `broadcastToAll` (server.ts lines 439-443). -/
def broadcastToAll (clients : List ClientConn) (f : Frame) : List (Nat × Frame) :=
  clients.flatMap (fun c => sendToClient c f)

/-- `broadcastUserUpdate` (server.ts lines 313-405): when the wallet has a
`users` row, assemble the snapshot and broadcast a `USERS_UPDATE` to every
client; when the user lookup is empty, return without sending. -/
def broadcastUserUpdate (clients : List ClientConn) (userExists : Bool)
    (pnlRows : List PnlRow) : List (Nat × Frame) :=
  if userExists then broadcastToAll clients (Frame.usersUpdate (assembleUserSnapshot pnlRows))
  else []

/-- `handleTradeUpdate` (server.ts lines 255-274): send `TRADE_UPDATE` to
each subscribed client, then `broadcastUserUpdate` for the wallet. -/
def handleTradeUpdate (clients : List ClientConn) (userExists : Bool)
    (pnlRows : List PnlRow) (wallet : String) (trade : Trade) : List (Nat × Frame) :=
  ((getSubscribedClients clients wallet).flatMap
      (fun c => sendToClient c (Frame.tradeUpdate wallet trade)))
    ++ broadcastUserUpdate clients userExists pnlRows

/-- `handleUnsubscribeWallet` (server.ts lines 235-253): delete the wallet
from both subscription sets and confirm with `{walletAddress, success:
true}` unconditionally. -/
def handleUnsubscribeWallet (c : ClientConn) (wallet : String) :
    ClientConn × List (Nat × Frame) :=
  let c2 : ClientConn :=
    { c with walletAddresses := c.walletAddresses.erase wallet,
             subscriptions := c.subscriptions.erase ("wallet:" ++ wallet) }
  (c2, sendToClient c (Frame.unsubscribeAck wallet true))

/-! ### Spec-side definitions for the token-delta refinement (C3) -/

/-- The paired token deltas exactly as the claim words them: each post
token balance owned by the wallet, paired with the pre balance at the same
`accountIndex`, kept when the change clears the dust threshold. -/
def pairedDeltasSpec (walletAddress : String)
    (preTokenBalances postTokenBalances : List TokenBalance) : List TokenChange :=
  postTokenBalances.filterMap (fun post =>
    if post.owner = some walletAddress then
      let preAmount :=
        ((preTokenBalances.find? (fun p => p.accountIndex = post.accountIndex)).bind
          TokenBalance.uiAmount).getD 0
      let postAmount := post.uiAmount.getD 0
      let change := postAmount - preAmount
      if dustThreshold < |change| then some ⟨post.mint, preAmount, postAmount, change⟩
      else none
    else none)

/-- The full-exit pass as the amended claim words it: walking the pre
token balances in order, append a full exit (kept without any dust
filter) for each entry owned by the wallet with positive amount, unless
some post balance at the same `accountIndex` carries the mint of an
already collected entry. -/
def fullExitPassSpec (walletAddress : String) (postTokenBalances : List TokenBalance) :
    List TokenBalance → List TokenChange → List TokenChange
  | [], acc => acc
  | pre :: rest, acc =>
    let dup := acc.any (fun tc =>
      postTokenBalances.any (fun post =>
        post.accountIndex = pre.accountIndex && post.mint = tc.mint))
    if ¬dup ∧ pre.owner = some walletAddress ∧ 0 < pre.uiAmount.getD 0 then
      fullExitPassSpec walletAddress postTokenBalances rest
        (acc ++ [⟨pre.mint, pre.uiAmount.getD 0, 0, -(pre.uiAmount.getD 0)⟩])
    else fullExitPassSpec walletAddress postTokenBalances rest acc

/-- The amended description of the surviving token deltas. -/
def amendedTokenDeltas (walletAddress : String)
    (preTokenBalances postTokenBalances : List TokenBalance) : List TokenChange :=
  fullExitPassSpec walletAddress postTokenBalances preTokenBalances
    (pairedDeltasSpec walletAddress preTokenBalances postTokenBalances)

/-- The token deltas exactly as claim C3 states them: paired entries plus
full exits for pre balances with no post balance at the same
`accountIndex`, with every entry — full exits included — dropped unless
its change is strictly above the `10⁻⁶` threshold (a delta of exactly
`10⁻⁶` is dropped). -/
def claimedTokenDeltas (walletAddress : String)
    (preTokenBalances postTokenBalances : List TokenBalance) : List TokenChange :=
  let paired := postTokenBalances.filterMap (fun post =>
    if post.owner = some walletAddress then
      let preAmount :=
        ((preTokenBalances.find? (fun p => p.accountIndex = post.accountIndex)).bind
          TokenBalance.uiAmount).getD 0
      let postAmount := post.uiAmount.getD 0
      some (⟨post.mint, preAmount, postAmount, postAmount - preAmount⟩ : TokenChange)
    else none)
  let exits := preTokenBalances.filterMap (fun pre =>
    if pre.owner = some walletAddress ∧
        (postTokenBalances.all (fun post => post.accountIndex ≠ pre.accountIndex)) ∧
        0 < pre.uiAmount.getD 0 then
      some (⟨pre.mint, pre.uiAmount.getD 0, 0, -(pre.uiAmount.getD 0)⟩ : TokenChange)
    else none)
  (paired ++ exits).filter (fun tc => dustThreshold < |tc.change|)

/-! ### Claim theorems -/

/-- C1 (code bug). Apply-trade for a wallet whose DailyPnL row for today
exists in the store but is not in the in-memory cache (the
process-restart case): the claim requires the call to bump `totalTrades`,
set `endBalance` to the current balance, add `tradePnl` to `realizedPnl`,
persist the row, and emit a `Pnl` event. The code instead returns after
`initializeDailyPnL`, which declines to touch anything because a row for
today already exists (and never loads it into the cache): on the wallet
with today's row `⟨date 1000, start 5, end 5, realizedPnl 2, totalTrades
1⟩` and an empty cache, applying a trade with balance 10 and pnl 1/2
leaves the store row byte-identical and emits no event — the trade is
silently dropped, contradicting spec section 4.5. -/
theorem c1_applyTrade_dropped_without_cache :
    updateDailyPnL "W" 1000 10 (1/2) none
      ⟨[⟨1000, 5, some 5, 2, 1, none⟩], none⟩ =
    (⟨[⟨1000, 5, some 5, 2, 1, none⟩], none⟩, []) := by decide

/-- C2 counterexample. First touch of a day with prior endBalance `5` and
passed current balance `7`: the inserted row is `⟨startBalance 5,
endBalance 7, realizedPnl 0, totalTrades 0⟩`, so `endBalance ≠
startBalance` — refuting the claim that the new row has `endBalance =
startBalance` for every prior endBalance value. -/
theorem c2_endBalance_not_startBalance :
    (initializeDailyPnL 2000 7 ⟨[⟨1000, 4, some 5, 1, 2, none⟩], none⟩).rows =
      [⟨1000, 4, some 5, 1, 2, none⟩, ⟨2000, 5, some 7, 0, 0, none⟩] ∧
    some (7 : ℚ) ≠ some (5 : ℚ) := by decide

/-- C3 counterexample. A pre token balance of `10⁻⁷` owned by the wallet
with no post balance: the claim (all entries, full exits included, with
`|change| < 10⁻⁶` dropped) predicts the empty delta list, but the code
keeps the full-exit entry because the dust filter is never applied on the
full-exit path. -/
theorem c3_full_exit_skips_dust_filter :
    computeTokenChanges "W" [⟨0, "M", some "W", some (1 / 10000000)⟩] [] =
      [⟨"M", 1 / 10000000, 0, -(1 / 10000000)⟩] ∧
    claimedTokenDeltas "W" [⟨0, "M", some "W", some (1 / 10000000)⟩] [] = [] ∧
    ([⟨"M", 1 / 10000000, 0, -(1 / 10000000)⟩] : List TokenChange) ≠ [] := by
  refine ⟨?_, ?_, by simp⟩
  · norm_num [computeTokenChanges, postTokenPass, preTokenPass]
  · norm_num [claimedTokenDeltas, dustThreshold, abs_of_pos]

/-- C4 counterexample. A successful same-day transaction with SOL delta
exactly 0 and a token delta 0 → 100 on mint `M` (wallet at account
index 0, pre = post = 10⁹ lamports, now = UTC−8 midnight on a UTC host):
the claim predicts a persisted deposit row `{tokenA = tokenB = M, amountA
= 100, platform = transfer}`, but the code hits the `|solChange| <
0.000001` fee-only check first, caches the signature and writes nothing;
the trades store stays empty, the DailyPnL row stays untouched and no
event is emitted. -/
theorem c4_zero_sol_is_fee_only_skip :
    processTransaction "W" "s" (some 30000)
      (some ⟨false, [1000000000], [1000000000], [],
             [⟨1, "M", some "W", some 100⟩], ["W"]⟩)
      28800000 0 false
      ⟨[], [], ⟨[⟨0, 5, some 5, 0, 0, none⟩], none⟩⟩ =
    (⟨["s"], [], ⟨[⟨0, 5, some 5, 0, 0, none⟩], none⟩⟩, []) := by
  norm_num [processTransaction, getPSTDate, getPSTStartOfDay, getPSTEndOfDay,
    setHoursStart, setHoursEnd, msPerMinute, msPerHour, msPerDay, pstOffsetHours,
    dustThreshold]

/-- C5 counterexample. A same-day buy (SOL 1.0 → 0.9, token 0 → 500)
whose trade upsert throws (`persistFails = true`): the claim says the
signature is not added to `SeenSignatures` so the write is retried, but
the catch block caches it — the final state has the signature in the
seen set while the trade row was never written. -/
theorem c5_failed_persist_still_cached :
    (processTransaction "W" "s" (some 30000)
      (some ⟨false, [1000000000], [900000000], [],
             [⟨1, "M", some "W", some 500⟩], ["W"]⟩)
      28800000 0 true ⟨[], [], ⟨[], none⟩⟩).1.processedTransactions = ["s"] ∧
    (processTransaction "W" "s" (some 30000)
      (some ⟨false, [1000000000], [900000000], [],
             [⟨1, "M", some "W", some 500⟩], ["W"]⟩)
      28800000 0 true ⟨[], [], ⟨[], none⟩⟩).1.trades = [] := by
  have hM : "M" ≠ "So11111111111111111111111111111111111111112" := by decide
  constructor <;>
    norm_num [processTransaction, getPSTDate, getPSTStartOfDay, getPSTEndOfDay,
      setHoursStart, setHoursEnd, msPerMinute, msPerHour, msPerDay, pstOffsetHours,
      dustThreshold, computeTokenChanges, postTokenPass, preTokenPass,
      classifyAndSaveTransaction, classifyLoop, wsolMint, hM, abs_of_pos, abs_of_neg,
      abs_neg]

/-- C7 (code bug). Snapshot assembly with today's dayStart `86400000` for
a wallet whose only `pnl_records` row is dated the prior day `0`: the hub
selects the latest row by date (no filter on today), so the snapshot
carries the prior-day row and its endBalance `5` as the balance — the
claim (and the source's own "Get today's PnL" comment with its unused
`today` variable) requires `dailyPnl` to be absent and `balance = 0` when
no row for today exists. -/
theorem c7_snapshot_serves_prior_day :
    (assembleUserSnapshot [⟨0, 5, some 5, 2, 1, none⟩]).dailyPnl =
      some ⟨0, 5, some 5, 2, 1, none⟩ ∧
    (assembleUserSnapshot [⟨0, 5, some 5, 2, 1, none⟩]).balance = 5 ∧
    (0 : Int) ≠ 86400000 := by decide

/-- C9 (code bug). Day boundaries are host-timezone dependent: for the
instant `t = 0`, a UTC host (`getTimezoneOffset() = 0`) computes dayStart
`-86400000` while a UTC−8 host (`getTimezoneOffset() = 480`) computes
`-57600000`; only the latter equals the true fixed-offset UTC−8 day start
`utcMinus8DayStart 0`. This contradicts the claim (and spec section 4.1)
that the boundaries are independent of the host's local wall-clock
timezone, because `getPSTDate`/`setHours` use `getTimezoneOffset()`. -/
theorem c9_dayStart_depends_on_host_offset :
    getPSTStartOfDay 0 0 ≠ getPSTStartOfDay 0 480 ∧
    getPSTStartOfDay 0 0 ≠ utcMinus8DayStart 0 ∧
    getPSTStartOfDay 0 480 = utcMinus8DayStart 0 ∧
    getPSTEndOfDay 0 0 ≠ getPSTEndOfDay 0 480 := by decide

/-- C2 (amended). Ensure-row seeding on the first touch of a day: when no
row for `today` exists and the most recent prior row carries `endBalance =
e`, the inserted row has `startBalance = e`, `realizedPnl = 0`,
`totalTrades = 0` — but `endBalance` is the passed current balance (it
equals `startBalance` only when the two coincide) — and the cache entry is
seeded the same way. -/
theorem c2_ensureRow_seeding (st : PnlState) (today : Int) (cur e : ℚ) (r : PnlRow)
    (hnone : ∀ x ∈ st.rows, x.date ≠ today)
    (hlast : latestByDate st.rows = some r) (he : r.endBalance = some e) :
    initializeDailyPnL today cur st =
      { rows := st.rows ++ [⟨today, e, some cur, 0, 0, none⟩],
        cache := some ⟨today, e, cur, 0, 0⟩ } := by
  have hany : st.rows.any (fun x => x.date = today) = false := by
    rw [List.any_eq_false]
    intro x hx
    simpa using hnone x hx
  simp only [initializeDailyPnL, hany, Bool.false_eq_true, if_false, hlast, he]

/-- Witness for C2: yesterday's row ended at 5, today's first touch with
current balance 7 inserts `⟨start 5, end 7, pnl 0, trades 0⟩`. -/
theorem c2_ensureRow_seeding_witness :
    initializeDailyPnL 2000 7 ⟨[⟨1000, 4, some 5, 1, 2, none⟩], none⟩ =
      { rows := [⟨1000, 4, some 5, 1, 2, none⟩] ++ [⟨2000, 5, some 7, 0, 0, none⟩],
        cache := some ⟨2000, 5, 7, 0, 0⟩ } :=
  c2_ensureRow_seeding ⟨[⟨1000, 4, some 5, 1, 2, none⟩], none⟩ 2000 7 5
    ⟨1000, 4, some 5, 1, 2, none⟩ (by decide) (by decide) rfl

/-- C6 (confirmed). Idempotence of per-signature processing: feeding a
signature that was already processed — present in the in-memory
`SeenSignatures` set, or (after a restart) present as a `trades` row —
changes neither the trades store (so the single row keyed by the
signature stays the only one) nor the DailyPnL rows/cache, and emits no
event on the second pass. -/
theorem c6_duplicate_signature_noop (wallet sig : String) (blockTime : Option Int)
    (fetchTx : Option ParsedTx) (now tzOffset : Int) (persistFails : Bool)
    (st : MonitorState)
    (h : sig ∈ st.processedTransactions ∨ ∃ t ∈ st.trades, t.signature = sig) :
    (processTransaction wallet sig blockTime fetchTx now tzOffset persistFails st).1.trades
        = st.trades ∧
    (processTransaction wallet sig blockTime fetchTx now tzOffset persistFails st).1.pnl
        = st.pnl ∧
    (processTransaction wallet sig blockTime fetchTx now tzOffset persistFails st).2 = [] := by
  by_cases hseen : sig ∈ st.processedTransactions
  · simp [processTransaction, hseen]
  · have htr : ∃ t ∈ st.trades, t.signature = sig := h.resolve_left hseen
    have hany : st.trades.any (fun t => t.signature = sig) = true := by
      rw [List.any_eq_true]
      obtain ⟨t, ht, hts⟩ := htr
      exact ⟨t, ht, by simpa using hts⟩
    simp [processTransaction, hseen, hany]

/-- Witness for C6: a state whose store already holds the row for
signature `s`; the second pass only caches the signature. -/
theorem c6_duplicate_signature_noop_witness :
    (processTransaction "W" "s" none none 0 0 false
      ⟨[], [⟨"s", "W", "M", wsolMint, "buy", 1, 1, "unknown", -1, 1⟩],
       ⟨[], none⟩⟩).1.trades = [⟨"s", "W", "M", wsolMint, "buy", 1, 1, "unknown", -1, 1⟩] ∧
    (processTransaction "W" "s" none none 0 0 false
      ⟨[], [⟨"s", "W", "M", wsolMint, "buy", 1, 1, "unknown", -1, 1⟩],
       ⟨[], none⟩⟩).1.pnl = ⟨[], none⟩ ∧
    (processTransaction "W" "s" none none 0 0 false
      ⟨[], [⟨"s", "W", "M", wsolMint, "buy", 1, 1, "unknown", -1, 1⟩],
       ⟨[], none⟩⟩).2 = [] :=
  c6_duplicate_signature_noop "W" "s" none none 0 0 false
    ⟨[], [⟨"s", "W", "M", wsolMint, "buy", 1, 1, "unknown", -1, 1⟩], ⟨[], none⟩⟩
    (Or.inr ⟨⟨"s", "W", "M", wsolMint, "buy", 1, 1, "unknown", -1, 1⟩,
      List.mem_singleton.mpr rfl, rfl⟩)

/-- C10 (confirmed). `UNSUBSCRIBE_WALLET` for a wallet the client never
subscribed to leaves both subscription sets unchanged and still replies
with an `UNSUBSCRIBE_WALLET` frame carrying success = true; unsubscribing
is idempotent and the confirmation always reports success for every open
client. -/
theorem c10_unsubscribe_idempotent (c : ClientConn) (w : String)
    (h1 : w ∉ c.walletAddresses) (h2 : ("wallet:" ++ w) ∉ c.subscriptions)
    (h3 : c.isOpen = true) :
    handleUnsubscribeWallet c w = (c, [(c.id, Frame.unsubscribeAck w true)]) ∧
    (∀ d : ClientConn,
      (handleUnsubscribeWallet (handleUnsubscribeWallet d w).1 w).1
        = (handleUnsubscribeWallet d w).1) ∧
    (∀ d : ClientConn, d.isOpen = true →
      (handleUnsubscribeWallet d w).2 = [(d.id, Frame.unsubscribeAck w true)]) := by
  refine ⟨?_, ?_, ?_⟩
  · simp only [handleUnsubscribeWallet, sendToClient, h3, if_true,
      Finset.erase_eq_of_not_mem h1, Finset.erase_eq_of_not_mem h2]
    rw [← h3]
  · intro d
    simp [handleUnsubscribeWallet, Finset.erase_idem]
  · intro d hd
    simp [handleUnsubscribeWallet, sendToClient, hd]

/-- Witness for C10: an open client with empty subscription sets
unsubscribing from wallet `X`. -/
theorem c10_unsubscribe_idempotent_witness :
    handleUnsubscribeWallet ⟨0, true, ∅, ∅⟩ "X" =
      ((⟨0, true, ∅, ∅⟩ : ClientConn), [(0, Frame.unsubscribeAck "X" true)]) ∧
    (∀ d : ClientConn,
      (handleUnsubscribeWallet (handleUnsubscribeWallet d "X").1 "X").1
        = (handleUnsubscribeWallet d "X").1) ∧
    (∀ d : ClientConn, d.isOpen = true →
      (handleUnsubscribeWallet d "X").2 = [(d.id, Frame.unsubscribeAck "X" true)]) :=
  c10_unsubscribe_idempotent ⟨0, true, ∅, ∅⟩ "X"
    (Finset.not_mem_empty "X") (Finset.not_mem_empty _) rfl

/-- Unfolding one step of the source's pre-balance foldl. -/
theorem preTokenPass_cons (w : String) (postTB : List TokenBalance) (pre : TokenBalance)
    (rest : List TokenBalance) (acc : List TokenChange) :
    preTokenPass w postTB (pre :: rest) acc =
      preTokenPass w postTB rest
        (let alreadyProcessed := acc.any (fun tc =>
          postTB.any (fun post =>
            post.accountIndex = pre.accountIndex && post.mint = tc.mint))
         if ¬alreadyProcessed ∧ pre.owner = some w then
           let preAmount := pre.uiAmount.getD 0
           if 0 < preAmount then
             acc ++ [⟨pre.mint, preAmount, 0, -preAmount⟩]
           else acc
         else acc) := rfl

/-- The source's post-balance foldl with an arbitrary accumulator is the
accumulator followed by the filterMap form of the paired deltas. -/
theorem postPass_aux (w : String) (preTB : List TokenBalance) :
    ∀ (postTB : List TokenBalance) (acc : List TokenChange),
      postTB.foldl (fun acc post =>
        if post.owner = some w then
          let pre := preTB.find? (fun p => p.accountIndex = post.accountIndex)
          let preAmount := (pre.bind TokenBalance.uiAmount).getD 0
          let postAmount := post.uiAmount.getD 0
          let change := postAmount - preAmount
          if dustThreshold < |change| then
            acc ++ [⟨post.mint, preAmount, postAmount, change⟩]
          else acc
        else acc) acc = acc ++ pairedDeltasSpec w preTB postTB
  | [], acc => by simp [pairedDeltasSpec]
  | post :: rest, acc => by
    rw [List.foldl_cons, postPass_aux w preTB rest]
    simp only [pairedDeltasSpec, List.filterMap_cons]
    split_ifs <;> simp

/-- The first phase of the token-delta computation equals its filterMap
specification. -/
theorem postTokenPass_eq (w : String) (preTB postTB : List TokenBalance) :
    postTokenPass w preTB postTB = pairedDeltasSpec w preTB postTB := by
  have h := postPass_aux w preTB postTB []
  simpa using h

/-- The second phase of the token-delta computation equals the full-exit
recursion written from the amended claim. -/
theorem preTokenPass_eq (w : String) (postTB : List TokenBalance) :
    ∀ (preTB : List TokenBalance) (acc : List TokenChange),
      preTokenPass w postTB preTB acc = fullExitPassSpec w postTB preTB acc
  | [], _ => rfl
  | pre :: rest, acc => by
    rw [preTokenPass_cons, preTokenPass_eq w postTB rest]
    simp only [fullExitPassSpec]
    split_ifs <;> simp_all

/-- C3 (amended). The surviving token deltas are: each post token balance
owned by the wallet paired with the pre balance at the same accountIndex
(change = post − pre), kept only when the change strictly clears the
10⁻⁶ threshold (exactly 10⁻⁶ is dropped), followed — in pre-balance
order — by a full-exit entry (change = −preAmount, kept with no
threshold at all) for every pre balance owned by the wallet with
preAmount > 0 such that no post balance at its accountIndex carries the
mint of an already collected entry. Unlike the claim, full exits are
never dust-filtered, and the "no matching post" test is the
mint-based `alreadyProcessed` check above. -/
theorem c3_tokenDeltas_amended (w : String) (preTB postTB : List TokenBalance) :
    computeTokenChanges w preTB postTB = amendedTokenDeltas w preTB postTB := by
  unfold computeTokenChanges amendedTokenDeltas
  rw [postTokenPass_eq, preTokenPass_eq]

/-- The classification loop never touches the in-memory seen set. -/
theorem classifyLoop_seen (sig wallet : String) (solChange : ℚ) (tx : ParsedTx)
    (blockTime today : Int) (pf : Bool) :
    ∀ (tcs : List TokenChange) (st : MonitorState) (evs : List MonitorEvent),
      (classifyLoop sig wallet solChange tx blockTime today pf tcs st evs).st.processedTransactions
        = st.processedTransactions
  | [], _, _ => rfl
  | tc :: rest, st, evs => by
    simp only [classifyLoop]
    split_ifs <;>
      first
        | rfl
        | apply classifyLoop_seen

/-- `classifyAndSaveTransaction` never touches the in-memory seen set. -/
theorem classifyAndSave_seen (sig wallet : String) (solChange : ℚ)
    (tcs : List TokenChange) (tx : ParsedTx) (blockTime today : Int) (pf : Bool)
    (st : MonitorState) :
    (classifyAndSaveTransaction sig wallet solChange tcs tx blockTime today pf
        st).st.processedTransactions = st.processedTransactions := by
  unfold classifyAndSaveTransaction
  split_ifs
  · rfl
  · apply classifyLoop_seen

/-- C4 (amended). A transaction whose SOL balance delta at the wallet's
account index is exactly 0 — whatever its token deltas — is treated as
fee-only by the `|solChange| < 0.000001` check: the signature is cached
and processing stops, so no trade row of any kind is persisted, no event
is emitted, and the DailyPnL rows and cache are untouched. A deposit row
for a transfer-in is only written when the SOL delta clears the dust
threshold. -/
theorem c4_zero_sol_cache_skip (wallet sig : String) (bt : Int) (tx : ParsedTx)
    (now tz : Int) (pf : Bool) (st : MonitorState) (i : Nat)
    (h1 : sig ∉ st.processedTransactions)
    (h2 : ∀ t ∈ st.trades, t.signature ≠ sig)
    (h3 : bt ≠ 0)
    (h4 : getPSTStartOfDay now tz ≤ getPSTDate (bt * 1000) tz)
    (h5 : getPSTDate (bt * 1000) tz ≤ getPSTEndOfDay now tz)
    (h6 : tx.accountKeys.findIdx? (fun k => k = wallet) = some i)
    (h7 : tx.postBalances.getD i 0 = tx.preBalances.getD i 0) :
    processTransaction wallet sig (some bt) (some tx) now tz pf st =
      ({ st with processedTransactions := sig :: st.processedTransactions }, []) := by
  have hany : st.trades.any (fun t => t.signature = sig) = false := by
    rw [List.any_eq_false]
    intro t ht
    simpa using h2 t ht
  have hd1 : ¬ getPSTDate (bt * 1000) tz < getPSTStartOfDay now tz := not_lt.mpr h4
  have hd2 : ¬ getPSTEndOfDay now tz < getPSTDate (bt * 1000) tz := not_lt.mpr h5
  have hz : |tx.postBalances.getD i 0 / 1000000000 -
      tx.preBalances.getD i 0 / 1000000000| < dustThreshold := by
    rw [h7, sub_self, abs_zero, dustThreshold]
    norm_num
  simp only [processTransaction, Option.getD_some, h6]
  rw [if_neg h1, if_neg (by simp [hany]), if_neg h3, if_neg (by simp [hd1, hd2]),
    if_pos hz]

/-- Witness for C4: the counterexample scenario (pre = post = 10⁹
lamports, token 0 → 100) run through the amended statement. -/
theorem c4_zero_sol_cache_skip_witness :
    processTransaction "W" "s2" (some 30000)
      (some ⟨false, [1000000000], [1000000000], [],
             [⟨1, "M", some "W", some 100⟩], ["W"]⟩)
      28800000 0 false
      ⟨[], [], ⟨[⟨0, 5, some 5, 0, 0, none⟩], none⟩⟩ =
    (⟨["s2"], [], ⟨[⟨0, 5, some 5, 0, 0, none⟩], none⟩⟩, []) :=
  c4_zero_sol_cache_skip "W" "s2" 30000
    ⟨false, [1000000000], [1000000000], [], [⟨1, "M", some "W", some 100⟩], ["W"]⟩
    28800000 0 false ⟨[], [], ⟨[⟨0, 5, some 5, 0, 0, none⟩], none⟩⟩ 0
    (by simp) (by simp) (by decide) (by decide) (by decide) (by decide) rfl

/-- C5 (amended). When a transaction reaches classification and the trade
upsert throws (`persistFails = true`), the per-signature catch block still
adds the signature to `SeenSignatures`: the seen set afterwards is exactly
the old one with the signature prepended, so the signature is permanently
skipped on later cycles rather than retried. -/
theorem c5_failed_persist_cached (wallet sig : String) (bt : Int) (tx : ParsedTx)
    (now tz : Int) (st : MonitorState) (i : Nat)
    (h1 : sig ∉ st.processedTransactions)
    (h2 : ∀ t ∈ st.trades, t.signature ≠ sig)
    (h3 : bt ≠ 0)
    (h4 : getPSTStartOfDay now tz ≤ getPSTDate (bt * 1000) tz)
    (h5 : getPSTDate (bt * 1000) tz ≤ getPSTEndOfDay now tz)
    (h6 : tx.accountKeys.findIdx? (fun k => k = wallet) = some i)
    (h7 : dustThreshold ≤ |tx.postBalances.getD i 0 / 1000000000 -
        tx.preBalances.getD i 0 / 1000000000|)
    (h8 : computeTokenChanges wallet tx.preTokenBalances tx.postTokenBalances ≠ []) :
    (processTransaction wallet sig (some bt) (some tx) now tz true
        st).1.processedTransactions = sig :: st.processedTransactions := by
  have hany : st.trades.any (fun t => t.signature = sig) = false := by
    rw [List.any_eq_false]
    intro t ht
    simpa using h2 t ht
  have hd1 : ¬ getPSTDate (bt * 1000) tz < getPSTStartOfDay now tz := not_lt.mpr h4
  have hd2 : ¬ getPSTEndOfDay now tz < getPSTDate (bt * 1000) tz := not_lt.mpr h5
  have hz : ¬ |tx.postBalances.getD i 0 / 1000000000 -
      tx.preBalances.getD i 0 / 1000000000| < dustThreshold := not_lt.mpr h7
  simp only [processTransaction, Option.getD_some, h6]
  rw [if_neg h1, if_neg (by simp [hany]), if_neg h3, if_neg (by simp [hd1, hd2]),
    if_neg hz, if_neg h8]
  simp [classifyAndSave_seen]

/-- Witness for C5: the failing-upsert buy scenario; afterwards the seen
set is exactly the signature. -/
theorem c5_failed_persist_cached_witness :
    (processTransaction "W" "s3" (some 30000)
      (some ⟨false, [1000000000], [900000000], [],
             [⟨1, "M", some "W", some 500⟩], ["W"]⟩)
      28800000 0 true
      ⟨[], [], ⟨[], none⟩⟩).1.processedTransactions = "s3" :: [] :=
  c5_failed_persist_cached "W" "s3" 30000
    ⟨false, [1000000000], [900000000], [], [⟨1, "M", some "W", some 500⟩], ["W"]⟩
    28800000 0 ⟨[], [], ⟨[], none⟩⟩ 0
    (by simp) (by simp) (by decide) (by decide) (by decide) (by decide)
    (by norm_num [dustThreshold, abs_of_neg])
    (by norm_num [computeTokenChanges, postTokenPass, preTokenPass, dustThreshold])

/-- Broadcasting a frame to a list of open clients delivers it once per
occurrence of a client id. -/
theorem count_broadcastToAll (f : Frame) (i : Nat) :
    ∀ (clients : List ClientConn), (∀ c ∈ clients, c.isOpen = true) →
      (broadcastToAll clients f).count (i, f) = (clients.map ClientConn.id).count i
  | [], _ => rfl
  | c :: rest, hopen => by
    have hc : c.isOpen = true := hopen c (List.mem_cons_self c rest)
    have hrest := fun d hd => hopen d (List.mem_cons_of_mem c hd)
    have hstep : broadcastToAll (c :: rest) f = sendToClient c f ++ broadcastToAll rest f := rfl
    rw [hstep, List.count_append, count_broadcastToAll f i rest hrest]
    have hsend : sendToClient c f = [(c.id, f)] := by simp [sendToClient, hc]
    rw [hsend, List.map_cons]
    simp [List.count_cons, Prod.ext_iff, Nat.add_comm]

/-- A broadcast of frame `f` contributes no frame different from `f`. -/
theorem count_broadcastToAll_ne (clients : List ClientConn) (f g : Frame) (i : Nat)
    (hfg : f ≠ g) : (broadcastToAll clients f).count (i, g) = 0 := by
  rw [List.count_eq_zero]
  intro hmem
  obtain ⟨c, _, hin⟩ := List.mem_flatMap.mp hmem
  revert hin
  simp only [sendToClient]
  split_ifs
  · intro hin
    rw [List.mem_singleton] at hin
    exact hfg (by injection hin with _ h2; exact h2.symm)
  · intro hin
    cases hin

/-- C8 (confirmed). Fan-out of a `trade` event for wallet `W` (whose user
row exists, as it does for every monitored wallet): each connected open
client receives the `TRADE_UPDATE` frame exactly once if `W` is in its
subscription set and never otherwise, and every connected open client
receives the `USERS_UPDATE` frame carrying `W`'s snapshot exactly once,
subscribed or not. -/
theorem c8_fanout (clients : List ClientConn) (pnlRows : List PnlRow)
    (wallet : String) (trade : Trade) (c : ClientConn)
    (hopen : ∀ d ∈ clients, d.isOpen = true)
    (hids : (clients.map ClientConn.id).Nodup)
    (hc : c ∈ clients) :
    (handleTradeUpdate clients true pnlRows wallet trade).count
        (c.id, Frame.tradeUpdate wallet trade)
      = (if wallet ∈ c.walletAddresses then 1 else 0) ∧
    (handleTradeUpdate clients true pnlRows wallet trade).count
        (c.id, Frame.usersUpdate (assembleUserSnapshot pnlRows)) = 1 := by
  have hUneT : Frame.usersUpdate (assembleUserSnapshot pnlRows) ≠
      Frame.tradeUpdate wallet trade := by simp
  have hTneU : Frame.tradeUpdate wallet trade ≠
      Frame.usersUpdate (assembleUserSnapshot pnlRows) := by simp
  have hsubopen : ∀ d ∈ getSubscribedClients clients wallet, d.isOpen = true :=
    fun d hd => hopen d (List.mem_of_mem_filter hd)
  have hsubids : ((getSubscribedClients clients wallet).map ClientConn.id).Nodup :=
    hids.sublist ((List.filter_sublist clients).map ClientConn.id)
  have hEq : handleTradeUpdate clients true pnlRows wallet trade =
      broadcastToAll (getSubscribedClients clients wallet) (Frame.tradeUpdate wallet trade)
        ++ broadcastToAll clients (Frame.usersUpdate (assembleUserSnapshot pnlRows)) := rfl
  rw [hEq]
  constructor
  · rw [List.count_append, count_broadcastToAll _ _ _ hsubopen,
      count_broadcastToAll_ne _ _ _ _ hUneT, Nat.add_zero]
    by_cases hw : wallet ∈ c.walletAddresses
    · rw [if_pos hw]
      exact List.count_eq_one_of_mem hsubids
        (List.mem_map_of_mem _ (List.mem_filter.mpr ⟨hc, by simpa using hw⟩))
    · rw [if_neg hw, List.count_eq_zero]
      intro hmem
      obtain ⟨d, hd, hdid⟩ := List.mem_map.mp hmem
      have hdc : d = c :=
        List.inj_on_of_nodup_map hids (List.mem_of_mem_filter hd) hc hdid
      subst hdc
      exact hw (by simpa using (List.mem_filter.mp hd).2)
  · rw [List.count_append, count_broadcastToAll_ne _ _ _ _ hTneU,
      count_broadcastToAll _ _ _ hopen, Nat.zero_add]
    exact List.count_eq_one_of_mem hids (List.mem_map_of_mem _ hc)

/-- Subscriber A of the fan-out scenario: subscribed to wallet W1 only. -/
def clientA : ClientConn := ⟨0, true, {"W1"}, ∅⟩

/-- Subscriber B of the fan-out scenario: subscribed to W1 and W2. -/
def clientB : ClientConn := ⟨1, true, {"W1", "W2"}, ∅⟩

/-- The trade carried by the fan-out scenario's event. -/
def sampleTrade : Trade := ⟨"sx", "W2", "M", wsolMint, "buy", 1, 1, "unknown", -1, 1⟩

/-- Witness for C8, the spec's subscriber fan-out scenario: a trade event
for W2 reaches B once and A never, while both receive the USERS_UPDATE
exactly once. -/
theorem c8_fanout_witness :
    (handleTradeUpdate [clientA, clientB] true [] "W2" sampleTrade).count
        (0, Frame.tradeUpdate "W2" sampleTrade) = 0 ∧
    (handleTradeUpdate [clientA, clientB] true [] "W2" sampleTrade).count
        (1, Frame.tradeUpdate "W2" sampleTrade) = 1 ∧
    (handleTradeUpdate [clientA, clientB] true [] "W2" sampleTrade).count
        (0, Frame.usersUpdate (assembleUserSnapshot [])) = 1 ∧
    (handleTradeUpdate [clientA, clientB] true [] "W2" sampleTrade).count
        (1, Frame.usersUpdate (assembleUserSnapshot [])) = 1 := by
  have hopen : ∀ d ∈ [clientA, clientB], d.isOpen = true := by
    simp [clientA, clientB]
  have hids : (([clientA, clientB]).map ClientConn.id).Nodup := by
    simp [clientA, clientB]
  have hA := c8_fanout [clientA, clientB] [] "W2" sampleTrade clientA hopen hids
    (List.mem_cons_self _ _)
  have hB := c8_fanout [clientA, clientB] [] "W2" sampleTrade clientB hopen hids
    (List.mem_cons_of_mem _ (List.mem_cons_self _ _))
  refine ⟨?_, ?_, ?_, ?_⟩
  · have h := hA.1
    rw [if_neg (by decide)] at h
    exact h
  · have h := hB.1
    rw [if_pos (by decide)] at h
    exact h
  · exact hA.2
  · exact hB.2
